import Mathlib

/-!
# obs-squawk: the polling loop of `InputThread::run` and the audio callback

A shallow embedding of `src/input-thread.cpp` (`InputThread::run`) and of
`audio_samples_callback` from `src/squawk-source.cpp`.

* `std::string` values are `String`s; the character stream consumed by
  `std::getline` is the string's list of characters.
* Every interaction of one loop iteration with the outside world is an input of
  the iteration (`TickEnv`): what the file system answered, what the OBS source
  lookup answered, and what `now_ms()` returned at each of its three call sites.
* `now_ms()` returns `uint64_t`; the elapsed times are computed modulo `2^64`.
* The member `interval` is a natural number of milliseconds; the comparisons of
  lines 92-96 are made on natural numbers, `interval * 2` being the exact
  product.
* A run of the `while (running)` loop is given by the list of the observations
  of the iterations that ran.  `runTicks` runs lines 35-120 on given clock
  values; `runLoop` runs lines 35-123, sleep included, against a system clock
  that advances by the real time elapsed and by whatever it is set by.
* The generation thread is represented by the ordered list of arguments with
  which it calls `speechGenerationCallback`.
-/

namespace Squawk

/-! ## Data model -/

/-- Modelled from the spec: the enum `ReadingMode` is declared in
`input-thread.h`, which is not among the sources.  `run` names one enumerator,
`ReadingMode::LineByLine` (line 107), and treats every other value alike; the
specification has one other reading mode, WholeBlock. -/
inductive ReadingMode where
  | LineByLine
  | WholeBlock
  deriving DecidableEq, Repr

/-- Modelled from the spec: the enum `DebouceMode` (spelled as in the source) is
declared in `input-thread.h`, which is not among the sources.  `run` names one
enumerator, `DebouceMode::Debounced` (line 86), and treats every other value
alike; the specification has one other debounce mode, Immediate. -/
inductive DebouceMode where
  | Debounced
  | Immediate
  deriving DecidableEq, Repr

/-- Modelled from the spec: the declaration of `class InputThread` is in
`input-thread.h`, which is not among the sources.  The fields are the members
that `run` reads or writes, under their names in `run`.  `interval` is a number
of milliseconds (the constructor sets it to `1000`), the two timestamps are
values of `now_ms()`, and `hasCallback` is the truth value of
`speechGenerationCallback` at line 103 (true exactly when a callback is
installed). -/
structure InputThread where
  interval : Nat
  file : String
  obsTextSource : String
  lastFileValue : String
  lastOBSTextSourceValue : String
  lastChangeTimeFile : Nat
  lastChangeTimeSource : Nat
  debounceMode : DebouceMode
  readingMode : ReadingMode
  hasCallback : Bool
  deriving DecidableEq, Repr

/-- What the file system answers in one iteration (lines 45-56). -/
inductive FileRead where
  /-- `std::filesystem::exists(filePath)` is false. -/
  | missing
  /-- The file exists but `fileStream.is_open()` is false. -/
  | openFailed
  /-- The file was opened and `buffer.str()` is `s`. -/
  | contents (s : String)
  deriving DecidableEq, Repr

/-- What the OBS lookup answers in one iteration (lines 69-76). -/
inductive SourceFetch where
  /-- `obs_get_source_by_name` returned a null pointer. -/
  | notFound
  /-- `obs_source_get_settings` returned a null pointer. -/
  | noSettings
  /-- `obs_data_get_string(sourceSettings, "text")` returned a null pointer. -/
  | nullText
  /-- `obs_data_get_string(sourceSettings, "text")` returned the text `s`. -/
  | text (s : String)
  deriving DecidableEq, Repr

/-- Everything one loop iteration observes from outside: the file read, the
source lookup, and the values of `now_ms()` at line 60 (`nowFile`), line 79
(`nowSource`) and line 89 (`nowDebounce`).  A `now_ms()` value is a `uint64_t`,
that is a number below `2^64`. -/
structure TickEnv where
  fileRead : FileRead
  sourceFetch : SourceFetch
  nowFile : Nat
  nowSource : Nat
  nowDebounce : Nat
  deriving DecidableEq, Repr

/-- Which assignment of the debounce block (lines 92-100) produced the staged
output of an iteration: line 94 (`file`), line 97 (`source`) or line 99
(`cleared`); `skipped` when the block did not run (mode is not `Debounced`). -/
inductive DebounceBranch where
  | file
  | source
  | cleared
  | skipped
  deriving DecidableEq, Repr

/-- The outcome of one loop iteration: the object's members afterwards, the
value of `new_content_for_generation` at line 103, the branch of the debounce
block that ran, and the generation thread that was started (`none` when no
thread was started, otherwise the arguments of its calls to
`speechGenerationCallback`, in order). -/
structure TickResult where
  state : InputThread
  staged : String
  branch : DebounceBranch
  dispatched : Option (List String)
  deriving DecidableEq, Repr

/-! ## Lines 40-62: the file -/

/-- The local `fileContents` at line 57: the text read, or the empty string
it was initialised with when the file is missing or could not be opened. -/
def fileContents : FileRead → String
  | .contents s => s
  | .missing => ""
  | .openFailed => ""

/-- Lines 40-62.  Returns the updated members and the updated
`new_content_for_generation`. -/
def monitorFile (s : InputThread) (e : TickEnv) (staged : String) :
    InputThread × String :=
  if s.file ≠ "" then
    if fileContents e.fileRead ≠ s.lastFileValue then
      ({ s with lastFileValue := fileContents e.fileRead,
                lastChangeTimeFile := e.nowFile },
       fileContents e.fileRead)
    else (s, staged)
  else (s, staged)

/-! ## Lines 65-84: the OBS text source -/

/-- Lines 65-84.  Only a non-null `text` different from the stored value is a
change; every failed lookup leaves everything as it was. -/
def monitorSource (s : InputThread) (e : TickEnv) (staged : String) :
    InputThread × String :=
  if s.obsTextSource ≠ "" then
    match e.sourceFetch with
    | .text t =>
      if s.lastOBSTextSourceValue ≠ t then
        ({ s with lastOBSTextSourceValue := t,
                  lastChangeTimeSource := e.nowSource },
         t)
      else (s, staged)
    | .notFound => (s, staged)
    | .noSettings => (s, staged)
    | .nullText => (s, staged)
  else (s, staged)

/-! ## Lines 86-101: the debounce block -/

/-- Subtraction of two `uint64_t` values, as in `currentTime - lastChangeTimeFile`. -/
def sub64 (a b : Nat) : Nat :=
  (a % 2 ^ 64 + 2 ^ 64 - b % 2 ^ 64) % 2 ^ 64

/-- The local `timeSinceLastChangeFile` (line 90). -/
def timeSinceLastChangeFile (s : InputThread) (e : TickEnv) : Nat :=
  sub64 e.nowDebounce s.lastChangeTimeFile

/-- The local `timeSinceLastChangeSource` (line 91). -/
def timeSinceLastChangeSource (s : InputThread) (e : TickEnv) : Nat :=
  sub64 e.nowDebounce s.lastChangeTimeSource

/-- The test of lines 92-93 and 95-96 on an elapsed time:
`elapsed > interval && elapsed < (interval * 2)`. -/
def inWindow (elapsed interval : Nat) : Prop :=
  elapsed > interval ∧ elapsed < interval * 2

instance (elapsed interval : Nat) : Decidable (inWindow elapsed interval) :=
  inferInstanceAs (Decidable (elapsed > interval ∧ elapsed < interval * 2))

/-- Lines 86-101.  Returns the new `new_content_for_generation` and the branch
taken. -/
def debounce (s : InputThread) (e : TickEnv) (staged : String) :
    String × DebounceBranch :=
  match s.debounceMode with
  | .Debounced =>
    if inWindow (timeSinceLastChangeFile s e) s.interval then
      (s.lastFileValue, .file)
    else if inWindow (timeSinceLastChangeSource s e) s.interval then
      (s.lastOBSTextSourceValue, .source)
    else ("", .cleared)
  | .Immediate => (staged, .skipped)

/-! ## Lines 103-120: the generation thread -/

/-- One call of `std::getline(iss, line)` on the characters still unread:
`none` when the call fails (nothing left to read), otherwise the line extracted
and the characters left.  The delimiter is consumed and not stored. -/
def getline : List Char → Option (List Char × List Char)
  | [] => none
  | c :: cs =>
    if c = '\n' then some ([], cs)
    else
      match getline cs with
      | none => some ([c], [])
      | some (l, rest) => some (c :: l, rest)

/-- The loop of lines 111-113 with at most `fuel` iterations: the arguments of
the successive calls `speechGenerationCallback(line)`. -/
def getlineLoop : Nat → List Char → List String
  | 0, _ => []
  | fuel + 1, cs =>
    match getline cs with
    | none => []
    | some (l, rest) => String.mk l :: getlineLoop fuel rest

/-- The body of the generation thread (lines 105-117) for the captured content:
the arguments of its calls to `speechGenerationCallback`, in order.  Every
iteration of the `getline` loop consumes at least one character, so
`length + 1` iterations are enough (`getlineLoop_fuel`). -/
def generationThread (mode : ReadingMode) (content : String) : List String :=
  match mode with
  | .LineByLine => getlineLoop (content.data.length + 1) content.data
  | .WholeBlock => [content]

/-- Lines 103-120: a thread is started only for non-empty content with a
callback installed. -/
def dispatch (s : InputThread) (staged : String) : Option (List String) :=
  if staged ≠ "" ∧ s.hasCallback = true then
    some (generationThread s.readingMode staged)
  else none

/-! ## One iteration, and the loop -/

/-- One iteration of the `while (running)` loop (lines 35-120). -/
def tick (s : InputThread) (e : TickEnv) : TickResult :=
  let r1 := monitorFile s e ""
  let r2 := monitorSource r1.1 e r1.2
  let r3 := debounce r2.1 e r2.2
  { state := r2.1, staged := r3.1, branch := r3.2, dispatched := dispatch r2.1 r3.1 }

/-- The iterations of the loop, one per element of the list of observations
(the iterations that ran before `running` became false). -/
def runTicks (s : InputThread) : List TickEnv → List TickResult
  | [] => []
  | e :: es => tick s e :: runTicks (tick s e).state es

/-! ## Lines 16-21 and 123: the clock and the sleep

`now_ms()` reads `std::chrono::system_clock`, the wall clock, which the system
may set forward or back at any moment.  `std::this_thread::sleep_for` blocks
for at least the given duration of real time.  The loop is run here against a
clock that counts periods of `system_clock`, `periodsPerMs` of them in a
millisecond, and that moves between two points of the program by the real time
elapsed plus whatever the clock was set by meanwhile. -/

/-- The passing of time between two points of the program: `elapsed` clock
periods of real time go by, and meanwhile the system clock is set by `adjust`
periods (negative when it is set back). -/
structure Lapse where
  elapsed : Nat
  adjust : Int
  deriving DecidableEq, Repr

/-- The count of `system_clock::now().time_since_epoch()` after a lapse, given its
count before (the clock is not set to before its epoch). -/
def advance (clock : Nat) (l : Lapse) : Nat :=
  ((clock : Int) + (l.elapsed : Int) + l.adjust).toNat

/-- The function `now_ms()` (lines 16-21) when the system clock counts `clock`
periods: `duration_cast<milliseconds>` divides by the periods in a millisecond,
and the count is returned as a `uint64_t`. -/
def now_ms (periodsPerMs clock : Nat) : Nat :=
  (clock / periodsPerMs) % 2 ^ 64

/-- Line 123, `std::this_thread::sleep_for(std::chrono::milliseconds(interval))`:
the thread is blocked for `interval` milliseconds of real time and possibly
longer (`overslept` periods); the system clock may be set by `adjust` while it
is blocked.  Returns the count of the system clock when the thread resumes. -/
def sleep_for (periodsPerMs interval clock overslept : Nat) (adjust : Int) : Nat :=
  advance clock { elapsed := interval * periodsPerMs + overslept, adjust := adjust }

/-- Everything one loop iteration, sleep included, meets from outside: the file
read, the source lookup, the lapse from the top of the loop body to line 60,
from there to line 79, from there to line 89, from there to the call of
`sleep_for` at line 123, and how the sleep went. -/
structure LoopEnv where
  fileRead : FileRead
  sourceFetch : SourceFetch
  toFile : Lapse
  toSource : Lapse
  toDebounce : Lapse
  toSleep : Lapse
  overslept : Nat
  sleepAdjust : Int
  deriving DecidableEq, Repr

/-- The count of the system clock when line 89 is reached, `clock` being its
count at the top of the loop body. -/
def clockAtDebounce (clock : Nat) (e : LoopEnv) : Nat :=
  advance (advance (advance clock e.toFile) e.toSource) e.toDebounce

/-- What lines 35-120 observe in an iteration that starts when the system clock
counts `clock`: the three values of `now_ms()` are read off the clock. -/
def observed (periodsPerMs clock : Nat) (e : LoopEnv) : TickEnv :=
  { fileRead := e.fileRead, sourceFetch := e.sourceFetch,
    nowFile := now_ms periodsPerMs (advance clock e.toFile),
    nowSource := now_ms periodsPerMs (advance (advance clock e.toFile) e.toSource),
    nowDebounce := now_ms periodsPerMs (clockAtDebounce clock e) }

/-- The count of the system clock when the sleep of line 123 ends. -/
def clockAfter (periodsPerMs interval clock : Nat) (e : LoopEnv) : Nat :=
  sleep_for periodsPerMs interval (advance (clockAtDebounce clock e) e.toSleep)
    e.overslept e.sleepAdjust

/-- One whole iteration of the loop, lines 35-123: the outcome of lines 35-120
and the count of the system clock at the top of the next iteration.  Line 123
reads the member `interval` after lines 35-120 ran. -/
def loopTick (periodsPerMs : Nat) (s : InputThread) (clock : Nat) (e : LoopEnv) :
    TickResult × Nat :=
  (tick s (observed periodsPerMs clock e),
   clockAfter periodsPerMs (tick s (observed periodsPerMs clock e)).state.interval clock e)

/-- The iterations of the loop with their sleeps, started when the system clock
counts `clock`. -/
def runLoop (periodsPerMs : Nat) (s : InputThread) (clock : Nat) :
    List LoopEnv → List TickResult
  | [] => []
  | e :: es =>
    (loopTick periodsPerMs s clock e).1 ::
      runLoop periodsPerMs (loopTick periodsPerMs s clock e).1.state
        (loopTick periodsPerMs s clock e).2 es

/-- What the successive iterations of `runLoop` observe. -/
def loopEnvs (periodsPerMs : Nat) (s : InputThread) (clock : Nat) :
    List LoopEnv → List TickEnv
  | [] => []
  | e :: es =>
    observed periodsPerMs clock e ::
      loopEnvs periodsPerMs (loopTick periodsPerMs s clock e).1.state
        (loopTick periodsPerMs s clock e).2 es

/-- The count of the system clock when `runLoop` has run all its iterations. -/
def loopClock (periodsPerMs : Nat) (s : InputThread) (clock : Nat) :
    List LoopEnv → Nat
  | [] => clock
  | e :: es =>
    loopClock periodsPerMs (loopTick periodsPerMs s clock e).1.state
      (loopTick periodsPerMs s clock e).2 es

/-- The system clock is not set back during an iteration and its sleep. -/
def noSetBack (e : LoopEnv) : Prop :=
  0 ≤ e.toFile.adjust ∧ 0 ≤ e.toSource.adjust ∧ 0 ≤ e.toDebounce.adjust ∧
    0 ≤ e.toSleep.adjust ∧ 0 ≤ e.sleepAdjust

instance (e : LoopEnv) : Decidable (noSetBack e) :=
  inferInstanceAs (Decidable (0 ≤ e.toFile.adjust ∧ 0 ≤ e.toSource.adjust ∧
    0 ≤ e.toDebounce.adjust ∧ 0 ≤ e.toSleep.adjust ∧ 0 ≤ e.sleepAdjust))

/-! ## `audio_samples_callback` (squawk-source.cpp, lines 20-26) -/

/-- The call `squawk_data->audioThread->pushAudioSamples(v)` made by
`audio_samples_callback`, given by its one argument, the `std::vector<float>`
built from the sample array.  The samples are only copied, so their type is any
type `α`. -/
structure PushAudioSamples (α : Type) where
  samples : List α
  deriving DecidableEq, Repr

/-- The function `audio_samples_callback(data, samples, num_samples, sample_rate)`:
`samples` lists the values readable from the pointer of that name, of which
`std::vector<float>(samples, samples + num_samples)` copies the first
`num_samples`.  `sample_rate` is marked `UNUSED_PARAMETER` (line 22). -/
def audio_samples_callback {α : Type} (samples : List α) (num_samples : Nat)
    (_sample_rate : Int) : PushAudioSamples α :=
  { samples := samples.take num_samples }

/-! ## Vocabulary of the properties -/

/-- The file changed in an iteration: the comparison of line 57 is reached and
finds a difference. -/
def fileChanged (s : InputThread) (e : TickEnv) : Prop :=
  s.file ≠ "" ∧ fileContents e.fileRead ≠ s.lastFileValue

instance (s : InputThread) (e : TickEnv) : Decidable (fileChanged s e) :=
  inferInstanceAs (Decidable (s.file ≠ "" ∧ fileContents e.fileRead ≠ s.lastFileValue))

/-- The text the lookup delivered, when it delivered one (`text` is non-null at
line 76). -/
def fetchedText : SourceFetch → Option String
  | .text t => some t
  | .notFound => none
  | .noSettings => none
  | .nullText => none

/-- The text source changed in an iteration: the comparison of line 76 is
reached, with a text, and finds a difference. -/
def sourceChanged (s : InputThread) (e : TickEnv) : Prop :=
  s.obsTextSource ≠ "" ∧ fetchedText e.sourceFetch ≠ none ∧
    fetchedText e.sourceFetch ≠ some s.lastOBSTextSourceValue

instance (s : InputThread) (e : TickEnv) : Decidable (sourceChanged s e) :=
  inferInstanceAs (Decidable (s.obsTextSource ≠ "" ∧ fetchedText e.sourceFetch ≠ none ∧
    fetchedText e.sourceFetch ≠ some s.lastOBSTextSourceValue))

/-- The time `nowDebounce` read by each iteration of a run. -/
def tickTimes (envs : List TickEnv) : List Nat :=
  envs.map (fun e => e.nowDebounce)

/-- Lines `l₁, …, lₙ`, each followed by a newline character. -/
def terminatedLines (ls : List (List Char)) : List Char :=
  (ls.map (fun l => l ++ ['\n'])).flatten

/-! ## Concrete states and observations -/

/-- A thread in Debounced mode watching `notes.txt`, whose contents `"hi"` were
recorded at time `5000`, and the text source `Title`, whose text `"caption"` was
recorded at time `1000`. -/
def quietDebounced : InputThread :=
  { interval := 1000, file := "notes.txt", obsTextSource := "Title",
    lastFileValue := "hi", lastOBSTextSourceValue := "caption",
    lastChangeTimeFile := 5000, lastChangeTimeSource := 1000,
    debounceMode := .Debounced, readingMode := .WholeBlock, hasCallback := true }

/-- An iteration at time `t` that reads `"hi"` from the file and `"caption"` from
the text source again. -/
def rereadAt (t : Nat) : TickEnv :=
  { fileRead := .contents "hi", sourceFetch := .text "caption",
    nowFile := t, nowSource := t, nowDebounce := t }

/-- A thread in Immediate mode watching a file and a text source. -/
def immediateBoth : InputThread :=
  { interval := 1000, file := "notes.txt", obsTextSource := "Title",
    lastFileValue := "old file", lastOBSTextSourceValue := "old text",
    lastChangeTimeFile := 100, lastChangeTimeSource := 200,
    debounceMode := .Immediate, readingMode := .WholeBlock, hasCallback := true }

/-- An iteration in which the file and the text source both deliver new text. -/
def bothNew : TickEnv :=
  { fileRead := .contents "new file", sourceFetch := .text "new text",
    nowFile := 7000, nowSource := 7001, nowDebounce := 7002 }

/-- An iteration in which the file exists but cannot be opened, at time `9000`. -/
def openFails : TickEnv :=
  { fileRead := .openFailed, sourceFetch := .notFound,
    nowFile := 9000, nowSource := 9000, nowDebounce := 9000 }

/-- A thread in Debounced mode whose file and text source both changed at time
`5000`; the file's stored value is empty. -/
def bothInWindow : InputThread :=
  { interval := 1000, file := "notes.txt", obsTextSource := "Title",
    lastFileValue := "", lastOBSTextSourceValue := "caption",
    lastChangeTimeFile := 5000, lastChangeTimeSource := 5000,
    debounceMode := .Debounced, readingMode := .WholeBlock, hasCallback := true }

/-- An iteration at time `t` that finds the file missing and the text source
still showing `"caption"`. -/
def captionAt (t : Nat) : TickEnv :=
  { fileRead := .missing, sourceFetch := .text "caption",
    nowFile := t, nowSource := t, nowDebounce := t }

/-- A thread in Immediate mode and WholeBlock reading mode with nothing stored. -/
def freshWhole : InputThread :=
  { interval := 1000, file := "notes.txt", obsTextSource := "",
    lastFileValue := "", lastOBSTextSourceValue := "",
    lastChangeTimeFile := 0, lastChangeTimeSource := 0,
    debounceMode := .Immediate, readingMode := .WholeBlock, hasCallback := true }

/-- An iteration that reads `"hello"` from the file. -/
def readsHello : TickEnv :=
  { fileRead := .contents "hello", sourceFetch := .notFound,
    nowFile := 10, nowSource := 10, nowDebounce := 10 }

/-- Four iterations, 500 apart (half the interval of `quietDebounced`), that read
the stored values again. -/
def cadenceRun : List TickEnv :=
  [rereadAt 5700, rereadAt 6200, rereadAt 6700, rereadAt 7200]

/-- No time passes and the clock is not set. -/
def instant : Lapse :=
  { elapsed := 0, adjust := 0 }

/-- An iteration with its sleep that reads `c` from the file and `"caption"` from
the text source; the sleep lasts `overslept` periods longer than the interval
and the clock is set by `sleepAdjust` during it. -/
def loopReads (c : String) (overslept : Nat) (sleepAdjust : Int) : LoopEnv :=
  { fileRead := .contents c, sourceFetch := .text "caption",
    toFile := instant, toSource := instant, toDebounce := instant, toSleep := instant,
    overslept := overslept, sleepAdjust := sleepAdjust }

/-- Two iterations that read `"new"`, each sleeping 100 ms longer than the
interval, with a clock of 1000 periods in a millisecond that is never set. -/
def steadyRun : List LoopEnv :=
  [loopReads "new" 100000 0, loopReads "new" 100000 0]

/-- Two iterations that read `"hi"`; during the sleep of the first the clock is
set back by 600 ms (1000 periods in a millisecond). -/
def setBackRun : List LoopEnv :=
  [loopReads "hi" 0 (-600000), loopReads "hi" 0 0]

/-! # Theorems -/

/-! ## Basic facts about one iteration -/

/-- Lines 40-62 do nothing when the file did not change. -/
theorem monitorFile_of_unchanged (s : InputThread) (e : TickEnv) (staged : String)
    (h : ¬ fileChanged s e) : monitorFile s e staged = (s, staged) := by
  unfold fileChanged at h
  unfold monitorFile
  by_cases hf : s.file ≠ ""
  · have hc : ¬ fileContents e.fileRead ≠ s.lastFileValue := fun hc => h ⟨hf, hc⟩
    rw [if_pos hf, if_neg hc]
  · rw [if_neg hf]

/-- Lines 58-60: the effect of a change of the file. -/
theorem monitorFile_of_changed (s : InputThread) (e : TickEnv) (staged : String)
    (h : fileChanged s e) :
    monitorFile s e staged =
      ({ s with lastFileValue := fileContents e.fileRead,
                lastChangeTimeFile := e.nowFile },
       fileContents e.fileRead) := by
  unfold monitorFile
  rw [if_pos h.1, if_pos h.2]

/-- Lines 65-84 do nothing when the text source did not change. -/
theorem monitorSource_of_unchanged (s : InputThread) (e : TickEnv) (staged : String)
    (h : ¬ sourceChanged s e) : monitorSource s e staged = (s, staged) := by
  unfold sourceChanged at h
  unfold monitorSource
  by_cases hf : s.obsTextSource ≠ ""
  · rw [if_pos hf]
    cases hfetch : e.sourceFetch with
    | text t =>
      have hc : ¬ s.lastOBSTextSourceValue ≠ t := by
        intro hc
        apply h
        refine ⟨hf, ?_, ?_⟩
        · simp [hfetch, fetchedText]
        · simp only [hfetch, fetchedText, ne_eq, Option.some.injEq]
          exact fun h2 => hc h2.symm
      simp only [if_neg hc]
    | notFound => rfl
    | noSettings => rfl
    | nullText => rfl
  · rw [if_neg hf]

/-- Lines 77-79: the effect of a change of the text source. -/
theorem monitorSource_of_changed (s : InputThread) (e : TickEnv) (staged t : String)
    (h : sourceChanged s e) (ht : e.sourceFetch = .text t) :
    monitorSource s e staged =
      ({ s with lastOBSTextSourceValue := t,
                lastChangeTimeSource := e.nowSource },
       t) := by
  unfold sourceChanged at h
  have hc : s.lastOBSTextSourceValue ≠ t := by
    intro hc
    apply h.2.2
    simp [ht, fetchedText, hc]
  unfold monitorSource
  rw [if_pos h.1]
  simp only [ht, if_pos hc]

/-- What `monitorFile` never touches. -/
theorem monitorFile_frame (s : InputThread) (e : TickEnv) (staged : String) :
    (monitorFile s e staged).1.interval = s.interval ∧
    (monitorFile s e staged).1.file = s.file ∧
    (monitorFile s e staged).1.obsTextSource = s.obsTextSource ∧
    (monitorFile s e staged).1.lastOBSTextSourceValue = s.lastOBSTextSourceValue ∧
    (monitorFile s e staged).1.lastChangeTimeSource = s.lastChangeTimeSource ∧
    (monitorFile s e staged).1.debounceMode = s.debounceMode ∧
    (monitorFile s e staged).1.readingMode = s.readingMode ∧
    (monitorFile s e staged).1.hasCallback = s.hasCallback := by
  unfold monitorFile
  split_ifs <;> simp

/-- What `monitorSource` never touches. -/
theorem monitorSource_frame (s : InputThread) (e : TickEnv) (staged : String) :
    (monitorSource s e staged).1.interval = s.interval ∧
    (monitorSource s e staged).1.file = s.file ∧
    (monitorSource s e staged).1.obsTextSource = s.obsTextSource ∧
    (monitorSource s e staged).1.lastFileValue = s.lastFileValue ∧
    (monitorSource s e staged).1.lastChangeTimeFile = s.lastChangeTimeFile ∧
    (monitorSource s e staged).1.debounceMode = s.debounceMode ∧
    (monitorSource s e staged).1.readingMode = s.readingMode ∧
    (monitorSource s e staged).1.hasCallback = s.hasCallback := by
  by_cases h : sourceChanged s e
  · have h2 := h.2.1
    cases hfetch : e.sourceFetch with
    | text t => rw [monitorSource_of_changed s e staged t h hfetch]; simp
    | notFound => simp [hfetch, fetchedText] at h2
    | noSettings => simp [hfetch, fetchedText] at h2
    | nullText => simp [hfetch, fetchedText] at h2
  · rw [monitorSource_of_unchanged s e staged h]; simp

/-- The members an iteration never writes. -/
theorem tick_frame (s : InputThread) (e : TickEnv) :
    (tick s e).state.interval = s.interval ∧
    (tick s e).state.file = s.file ∧
    (tick s e).state.obsTextSource = s.obsTextSource ∧
    (tick s e).state.debounceMode = s.debounceMode ∧
    (tick s e).state.readingMode = s.readingMode ∧
    (tick s e).state.hasCallback = s.hasCallback := by
  have hf := monitorFile_frame s e ""
  have hs := monitorSource_frame (monitorFile s e "").1 e (monitorFile s e "").2
  simp only [tick]
  refine ⟨?_, ?_, ?_, ?_, ?_, ?_⟩
  · rw [hs.1, hf.1]
  · rw [hs.2.1, hf.2.1]
  · rw [hs.2.2.1, hf.2.2.1]
  · rw [hs.2.2.2.2.2.1, hf.2.2.2.2.2.1]
  · rw [hs.2.2.2.2.2.2.1, hf.2.2.2.2.2.2.1]
  · rw [hs.2.2.2.2.2.2.2, hf.2.2.2.2.2.2.2]

/-- An iteration leaves the file's stored value and timestamp alone when the file
did not change. -/
theorem tick_file_of_unchanged (s : InputThread) (e : TickEnv) (h : ¬ fileChanged s e) :
    (tick s e).state.lastFileValue = s.lastFileValue ∧
    (tick s e).state.lastChangeTimeFile = s.lastChangeTimeFile := by
  have hs := monitorSource_frame (monitorFile s e "").1 e (monitorFile s e "").2
  simp only [tick]
  rw [hs.2.2.2.1, hs.2.2.2.2.1, monitorFile_of_unchanged s e "" h]
  exact ⟨rfl, rfl⟩

/-- An iteration leaves the text source's stored value and timestamp alone when
the text source did not change. -/
theorem tick_source_of_unchanged (s : InputThread) (e : TickEnv)
    (h : ¬ sourceChanged s e) :
    (tick s e).state.lastOBSTextSourceValue = s.lastOBSTextSourceValue ∧
    (tick s e).state.lastChangeTimeSource = s.lastChangeTimeSource := by
  have hf := monitorFile_frame s e ""
  have h2 : ¬ sourceChanged (monitorFile s e "").1 e := by
    unfold sourceChanged at h ⊢
    rw [hf.2.2.1, hf.2.2.2.1]
    exact h
  simp only [tick]
  rw [monitorSource_of_unchanged _ e _ h2]
  exact ⟨hf.2.2.2.1, hf.2.2.2.2.1⟩

/-- The staged output and branch of an iteration are those of the debounce block
run on the members as they are after lines 40-84. -/
theorem tick_debounced (s : InputThread) (e : TickEnv)
    (hmode : s.debounceMode = .Debounced) (x : String) :
    debounce (tick s e).state e x = ((tick s e).staged, (tick s e).branch) ∧
    ((tick s e).staged, (tick s e).branch) =
      if inWindow (timeSinceLastChangeFile (tick s e).state e) s.interval then
        ((tick s e).state.lastFileValue, DebounceBranch.file)
      else if inWindow (timeSinceLastChangeSource (tick s e).state e) s.interval then
        ((tick s e).state.lastOBSTextSourceValue, DebounceBranch.source)
      else ("", DebounceBranch.cleared) := by
  have hfr := tick_frame s e
  have key : ∀ y, debounce (tick s e).state e y =
      if inWindow (timeSinceLastChangeFile (tick s e).state e) s.interval then
        ((tick s e).state.lastFileValue, DebounceBranch.file)
      else if inWindow (timeSinceLastChangeSource (tick s e).state e) s.interval then
        ((tick s e).state.lastOBSTextSourceValue, DebounceBranch.source)
      else ("", DebounceBranch.cleared) := by
    intro y
    unfold debounce
    rw [hfr.2.2.2.1, hmode, hfr.1]
  have hst : ((tick s e).staged, (tick s e).branch) =
      debounce (tick s e).state e
        (monitorSource (monitorFile s e "").1 e (monitorFile s e "").2).2 := rfl
  constructor
  · rw [hst, key, key]
  · rw [hst, key]

/-- In Immediate mode the staged output is what lines 40-84 staged. -/
theorem tick_immediate (s : InputThread) (e : TickEnv)
    (hmode : s.debounceMode = .Immediate) :
    (tick s e).staged =
      (monitorSource (monitorFile s e "").1 e (monitorFile s e "").2).2 := by
  have hf := monitorFile_frame s e ""
  have hs := monitorSource_frame (monitorFile s e "").1 e (monitorFile s e "").2
  simp only [tick, debounce]
  rw [hs.2.2.2.2.2.1, hf.2.2.2.2.2.1, hmode]

/-- Nothing is dispatched for an empty staged output. -/
theorem dispatch_empty (s : InputThread) : dispatch s "" = none := by
  simp [dispatch]

/-- The thread started by an iteration is the one `dispatch` starts for its
staged output. -/
theorem tick_dispatched (s : InputThread) (e : TickEnv) :
    (tick s e).dispatched = dispatch (tick s e).state (tick s e).staged := rfl

/-! ## C1: an iteration without a change -/

/-- C1, as stated, fails.  In Debounced mode an iteration in which the file is
read with its stored contents and the text source delivers its stored text
stages the stored file value and starts a generation thread: here the file
change was recorded at 5000, the interval is 1000 and the iteration runs at
6500. -/
theorem unchanged_tick_speaks_when_debounced :
    quietDebounced.debounceMode = .Debounced ∧
    fileContents (rereadAt 6500).fileRead = quietDebounced.lastFileValue ∧
    (rereadAt 6500).sourceFetch = .text quietDebounced.lastOBSTextSourceValue ∧
    (tick quietDebounced (rereadAt 6500)).staged = "hi" ∧
    (tick quietDebounced (rereadAt 6500)).dispatched = some ["hi"] := by
  decide

/-- C1, amended.  For every iteration and every prior state, if neither the
file nor the text source changed in this iteration, and the mode is Immediate or
neither elapsed time lies strictly between `interval` and `2 * interval`, then
the staged output is empty, no generation thread is started, and the members
are as before. -/
theorem unchanged_tick_stages_nothing (s : InputThread) (e : TickEnv)
    (hfile : ¬ fileChanged s e) (hsrc : ¬ sourceChanged s e)
    (hmode : s.debounceMode = .Immediate ∨
      (¬ (s.interval < timeSinceLastChangeFile s e ∧
            timeSinceLastChangeFile s e < s.interval * 2) ∧
       ¬ (s.interval < timeSinceLastChangeSource s e ∧
            timeSinceLastChangeSource s e < s.interval * 2))) :
    (tick s e).staged = "" ∧ (tick s e).dispatched = none ∧ (tick s e).state = s := by
  have hstate : (tick s e).state = s := by
    simp only [tick]
    rw [monitorFile_of_unchanged s e "" hfile, monitorSource_of_unchanged s e "" hsrc]
  have hstaged : (tick s e).staged = "" := by
    cases hm : s.debounceMode with
    | Immediate =>
      rw [tick_immediate s e hm, monitorFile_of_unchanged s e "" hfile,
        monitorSource_of_unchanged s e "" hsrc]
    | Debounced =>
      rcases hmode with h | ⟨h1, h2⟩
      · rw [hm] at h; exact absurd h (by decide)
      · have h3 := (tick_debounced s e hm "").2
        rw [hstate] at h3
        have n1 : ¬ inWindow (timeSinceLastChangeFile s e) s.interval := h1
        have n2 : ¬ inWindow (timeSinceLastChangeSource s e) s.interval := h2
        rw [if_neg n1, if_neg n2] at h3
        exact congrArg Prod.fst h3
  refine ⟨hstaged, ?_, hstate⟩
  rw [tick_dispatched, hstaged, dispatch_empty]

/-- Witness of `unchanged_tick_stages_nothing`: the iteration at 5700, before the
window of the change recorded at 5000 opens. -/
theorem unchanged_tick_stages_nothing_witness :
    (tick quietDebounced (rereadAt 5700)).staged = "" ∧
    (tick quietDebounced (rereadAt 5700)).dispatched = none ∧
    (tick quietDebounced (rereadAt 5700)).state = quietDebounced :=
  unchanged_tick_stages_nothing quietDebounced (rereadAt 5700) (by decide) (by decide)
    (Or.inr (by decide))

/-! ## C2: Immediate mode -/

/-- C2.  In Immediate mode, for every iteration: if only the file changed, the
staged output is the new file contents, the file's stored value and timestamp
are updated and those of the text source are as before; if only the text source
changed, the staged output is its new text, its stored value and timestamp are
updated and those of the file are as before; if both changed, the staged output
is the new text of the text source and all four members are updated. -/
theorem immediate_tick_stages_change (s : InputThread) (e : TickEnv)
    (hmode : s.debounceMode = .Immediate) :
    (fileChanged s e → ¬ sourceChanged s e →
      (tick s e).staged = fileContents e.fileRead ∧
      (tick s e).state.lastFileValue = fileContents e.fileRead ∧
      (tick s e).state.lastChangeTimeFile = e.nowFile ∧
      (tick s e).state.lastOBSTextSourceValue = s.lastOBSTextSourceValue ∧
      (tick s e).state.lastChangeTimeSource = s.lastChangeTimeSource) ∧
    (∀ t, ¬ fileChanged s e → sourceChanged s e → e.sourceFetch = .text t →
      (tick s e).staged = t ∧
      (tick s e).state.lastOBSTextSourceValue = t ∧
      (tick s e).state.lastChangeTimeSource = e.nowSource ∧
      (tick s e).state.lastFileValue = s.lastFileValue ∧
      (tick s e).state.lastChangeTimeFile = s.lastChangeTimeFile) ∧
    (∀ t, fileChanged s e → sourceChanged s e → e.sourceFetch = .text t →
      (tick s e).staged = t ∧
      (tick s e).state.lastOBSTextSourceValue = t ∧
      (tick s e).state.lastChangeTimeSource = e.nowSource ∧
      (tick s e).state.lastFileValue = fileContents e.fileRead ∧
      (tick s e).state.lastChangeTimeFile = e.nowFile) := by
  have hst := tick_immediate s e hmode
  have hf := monitorFile_frame s e ""
  have hs := monitorSource_frame (monitorFile s e "").1 e (monitorFile s e "").2
  have hsrc_iff : sourceChanged (monitorFile s e "").1 e ↔ sourceChanged s e := by
    unfold sourceChanged
    rw [hf.2.2.1, hf.2.2.2.1]
  have hstate : (tick s e).state =
      (monitorSource (monitorFile s e "").1 e (monitorFile s e "").2).1 := rfl
  refine ⟨?_, ?_, ?_⟩
  · intro hfc hsc
    have hsc2 : ¬ sourceChanged (monitorFile s e "").1 e := fun h => hsc (hsrc_iff.1 h)
    rw [hst, hstate, monitorSource_of_unchanged _ e _ hsc2, monitorFile_of_changed s e "" hfc]
    exact ⟨rfl, rfl, rfl, rfl, rfl⟩
  · intro t hfc hsc ht
    have hsc2 : sourceChanged (monitorFile s e "").1 e := hsrc_iff.2 hsc
    rw [hst, hstate, monitorSource_of_changed _ e _ t hsc2 ht, monitorFile_of_unchanged s e "" hfc]
    exact ⟨rfl, rfl, rfl, rfl, rfl⟩
  · intro t hfc hsc ht
    have hsc2 : sourceChanged (monitorFile s e "").1 e := hsrc_iff.2 hsc
    rw [hst, hstate, monitorSource_of_changed _ e _ t hsc2 ht, monitorFile_of_changed s e "" hfc]
    exact ⟨rfl, rfl, rfl, rfl, rfl⟩

/-- Witness of `immediate_tick_stages_change`: file and text source change in the
same iteration, and the text of the text source is staged. -/
theorem immediate_tick_stages_change_witness :
    immediateBoth.debounceMode = .Immediate ∧
    (tick immediateBoth bothNew).staged = "new text" ∧
    (tick immediateBoth bothNew).state.lastFileValue = "new file" :=
  ⟨rfl,
   ((immediate_tick_stages_change immediateBoth bothNew rfl).2.2 "new text"
      (by decide) (by decide) rfl).1,
   ((immediate_tick_stages_change immediateBoth bothNew rfl).2.2 "new text"
      (by decide) (by decide) rfl).2.2.2.1⟩

/-! ## C4 and C9: one iteration in Debounced mode -/

/-- C4.  In Debounced mode, for every iteration: the debounce block gives the
same result whatever lines 40-84 staged; a non-empty staged output is the stored
value of the file or of the text source, and the elapsed time of that one is
strictly greater than `interval` and strictly less than `2 * interval`; and
when neither elapsed time is in that open window the staged output is empty and
no generation thread is started. -/
theorem debounced_tick_window (s : InputThread) (e : TickEnv)
    (hmode : s.debounceMode = .Debounced) :
    (∀ x y, debounce (tick s e).state e x = debounce (tick s e).state e y) ∧
    (∀ x, (debounce (tick s e).state e x).1 = (tick s e).staged) ∧
    ((tick s e).staged ≠ "" →
      ((tick s e).staged = (tick s e).state.lastFileValue ∧
        s.interval < timeSinceLastChangeFile (tick s e).state e ∧
        timeSinceLastChangeFile (tick s e).state e < 2 * s.interval) ∨
      ((tick s e).staged = (tick s e).state.lastOBSTextSourceValue ∧
        s.interval < timeSinceLastChangeSource (tick s e).state e ∧
        timeSinceLastChangeSource (tick s e).state e < 2 * s.interval)) ∧
    (¬ (s.interval < timeSinceLastChangeFile (tick s e).state e ∧
          timeSinceLastChangeFile (tick s e).state e < 2 * s.interval) →
     ¬ (s.interval < timeSinceLastChangeSource (tick s e).state e ∧
          timeSinceLastChangeSource (tick s e).state e < 2 * s.interval) →
      (tick s e).staged = "" ∧ (tick s e).dispatched = none) := by
  have h := tick_debounced s e hmode
  refine ⟨?_, ?_, ?_, ?_⟩
  · intro x y
    rw [(h x).1, (h y).1]
  · intro x
    rw [(h x).1]
  · intro hne
    have h3 := (h "").2
    by_cases w1 : inWindow (timeSinceLastChangeFile (tick s e).state e) s.interval
    · rw [if_pos w1] at h3
      left
      refine ⟨congrArg Prod.fst h3, w1.1, ?_⟩
      have := w1.2
      omega
    · rw [if_neg w1] at h3
      by_cases w2 : inWindow (timeSinceLastChangeSource (tick s e).state e) s.interval
      · rw [if_pos w2] at h3
        right
        refine ⟨congrArg Prod.fst h3, w2.1, ?_⟩
        have := w2.2
        omega
      · rw [if_neg w2] at h3
        exact absurd (congrArg Prod.fst h3) hne
  · intro n1 n2
    have h3 := (h "").2
    have w1 : ¬ inWindow (timeSinceLastChangeFile (tick s e).state e) s.interval := by
      intro w
      exact n1 ⟨w.1, by have := w.2; omega⟩
    have w2 : ¬ inWindow (timeSinceLastChangeSource (tick s e).state e) s.interval := by
      intro w
      exact n2 ⟨w.1, by have := w.2; omega⟩
    rw [if_neg w1, if_neg w2] at h3
    have hst : (tick s e).staged = "" := congrArg Prod.fst h3
    refine ⟨hst, ?_⟩
    rw [tick_dispatched, hst, dispatch_empty]

/-- Witness of `debounced_tick_window`: at 7000, exactly `2 * interval` after the
change recorded at 5000, nothing is staged any more. -/
theorem debounced_tick_window_witness :
    quietDebounced.debounceMode = .Debounced ∧
    (tick quietDebounced (rereadAt 7000)).staged = "" ∧
    (tick quietDebounced (rereadAt 7000)).dispatched = none :=
  ⟨rfl, (debounced_tick_window quietDebounced (rereadAt 7000) rfl).2.2.2
    (by decide) (by decide)⟩

/-- C9.  In Debounced mode, for every iteration in which the file's elapsed time
is strictly between `interval` and `2 * interval`, the staged output is the
stored file value, whatever the elapsed time and stored text of the text
source; when that file value is empty, no generation thread is started. -/
theorem debounced_file_priority (s : InputThread) (e : TickEnv)
    (hmode : s.debounceMode = .Debounced)
    (hwin : s.interval < timeSinceLastChangeFile (tick s e).state e ∧
      timeSinceLastChangeFile (tick s e).state e < 2 * s.interval) :
    (tick s e).staged = (tick s e).state.lastFileValue ∧
    (tick s e).branch = .file ∧
    ((tick s e).state.lastFileValue = "" → (tick s e).dispatched = none) := by
  have h3 := (tick_debounced s e hmode "").2
  have w1 : inWindow (timeSinceLastChangeFile (tick s e).state e) s.interval :=
    ⟨hwin.1, by have := hwin.2; omega⟩
  rw [if_pos w1] at h3
  have hst : (tick s e).staged = (tick s e).state.lastFileValue := congrArg Prod.fst h3
  refine ⟨hst, congrArg Prod.snd h3, ?_⟩
  intro hempty
  rw [tick_dispatched, hst, hempty, dispatch_empty]

/-- Witness of `debounced_file_priority`: both elapsed times are 1500, the stored
file value is empty and the stored text is `"caption"`; nothing is dispatched. -/
theorem debounced_file_priority_witness :
    bothInWindow.debounceMode = .Debounced ∧
    (bothInWindow.interval <
        timeSinceLastChangeSource (tick bothInWindow (captionAt 6500)).state (captionAt 6500) ∧
      timeSinceLastChangeSource (tick bothInWindow (captionAt 6500)).state (captionAt 6500) <
        2 * bothInWindow.interval) ∧
    (tick bothInWindow (captionAt 6500)).state.lastOBSTextSourceValue = "caption" ∧
    (tick bothInWindow (captionAt 6500)).staged = "" ∧
    (tick bothInWindow (captionAt 6500)).dispatched = none :=
  ⟨rfl, by decide, by decide,
   (debounced_file_priority bothInWindow (captionAt 6500) rfl (by decide)).1,
   (debounced_file_priority bothInWindow (captionAt 6500) rfl (by decide)).2.2 (by decide)⟩

/-! ## C6: a file that cannot be opened -/

/-- C6 fails on the code.  With `"hi"` stored for the file, an iteration in which
the file exists but cannot be opened counts as a change of the file: the stored
value becomes empty and the timestamp becomes the time of the iteration (9000
instead of 5000).  When the file is read again afterwards, at 10000 and 11500,
its unchanged contents `"hi"` count as a new change and are staged, which they
are not when the iteration at 9000 reads the file. -/
theorem open_failure_resets_file_value :
    quietDebounced.file = "notes.txt" ∧
    quietDebounced.lastFileValue = "hi" ∧
    quietDebounced.lastChangeTimeFile = 5000 ∧
    openFails.fileRead = .openFailed ∧
    fileChanged quietDebounced openFails ∧
    (tick quietDebounced openFails).state.lastFileValue = "" ∧
    (tick quietDebounced openFails).state.lastChangeTimeFile = 9000 ∧
    (runTicks quietDebounced [openFails, rereadAt 10000, rereadAt 11500]).map
      (fun r => r.staged) = ["", "", "hi"] ∧
    (runTicks quietDebounced [rereadAt 9000, rereadAt 10000, rereadAt 11500]).map
      (fun r => r.staged) = ["", "", ""] := by
  decide

/-! ## C8: WholeBlock reading mode -/

/-- C8.  In WholeBlock reading mode, for every iteration whose staged output is
not empty, with a callback installed, one generation thread is started and it
calls the callback exactly once, with the staged string unmodified. -/
theorem whole_block_dispatch (s : InputThread) (e : TickEnv)
    (hmode : s.readingMode = .WholeBlock) (hcb : s.hasCallback = true)
    (hne : (tick s e).staged ≠ "") :
    (tick s e).dispatched = some [(tick s e).staged] := by
  have hfr := tick_frame s e
  rw [tick_dispatched]
  unfold dispatch
  rw [if_pos ⟨hne, by rw [hfr.2.2.2.2.2, hcb]⟩, hfr.2.2.2.2.1, hmode]
  rfl

/-- Witness of `whole_block_dispatch`: the content `"hello"` gives exactly one
call, with `"hello"`. -/
theorem whole_block_dispatch_witness :
    freshWhole.readingMode = .WholeBlock ∧
    (tick freshWhole readsHello).staged = "hello" ∧
    (tick freshWhole readsHello).dispatched = some ["hello"] :=
  ⟨rfl, by decide, whole_block_dispatch freshWhole readsHello rfl rfl (by decide)⟩

/-! ## C7: the audio callback -/

/-- C7, as stated, fails.  Two calls of `audio_samples_callback` with the same
three samples and the sample rates 16000 and 22050 make the same call of
`pushAudioSamples`: the chunk pushed carries no sample rate. -/
theorem sample_rate_not_pushed :
    audio_samples_callback ([3, -1, 4] : List Int) 3 16000 =
      audio_samples_callback ([3, -1, 4] : List Int) 3 22050 ∧
    ¬ ∃ rateOf : PushAudioSamples Int → Int,
        ∀ r : Int, rateOf (audio_samples_callback ([3, -1, 4] : List Int) 3 r) = r := by
  refine ⟨rfl, ?_⟩
  rintro ⟨rateOf, h⟩
  have h1 := h 16000
  have h2 := h 22050
  have h3 : audio_samples_callback ([3, -1, 4] : List Int) 3 16000 =
      audio_samples_callback ([3, -1, 4] : List Int) 3 22050 := rfl
  rw [h3, h2] at h1
  exact absurd h1 (by decide)

/-- C7, amended.  For every call of `audio_samples_callback` on an array that
starts with the samples `chunk`, with `num_samples` their number and any sample
rate `r`, the vector passed to `pushAudioSamples` consists of exactly those
samples in their original order, and it is the same for every sample rate. -/
theorem audio_callback_pushes_samples {α : Type} (chunk beyond : List α) (r : Int) :
    audio_samples_callback (chunk ++ beyond) chunk.length r = { samples := chunk } ∧
    (audio_samples_callback (chunk ++ beyond) chunk.length r).samples.length = chunk.length ∧
    ∀ r2 : Int, audio_samples_callback (chunk ++ beyond) chunk.length r2 =
      audio_samples_callback (chunk ++ beyond) chunk.length r := by
  have h : audio_samples_callback (chunk ++ beyond) chunk.length r = { samples := chunk } := by
    simp [audio_samples_callback]
  refine ⟨h, ?_, ?_⟩
  · rw [h]
  · intro r2
    rfl

/-! ## C5: LineByLine reading mode -/

/-- The defining equation of `getline` on input that is not exhausted. -/
theorem getline_cons (c : Char) (cs : List Char) :
    getline (c :: cs) =
      if c = '\n' then some ([], cs)
      else
        match getline cs with
        | none => some ([c], [])
        | some (l, rest) => some (c :: l, rest) := by
  rw [getline]

/-- A line without a newline character, followed by a newline character, is what
one call of `getline` extracts. -/
theorem getline_terminated (l rest : List Char) (h : '\n' ∉ l) :
    getline (l ++ '\n' :: rest) = some (l, rest) := by
  induction l with
  | nil => simp [getline]
  | cons c cs ih =>
    have hc : c ≠ '\n' := fun hc => h (by simp [hc])
    have hcs : '\n' ∉ cs := fun hcs => h (by simp [hcs])
    rw [List.cons_append, getline_cons, if_neg hc, ih hcs]

/-- A non-empty rest of input without a newline character is extracted whole. -/
theorem getline_unterminated (l : List Char) (h : '\n' ∉ l) (hne : l ≠ []) :
    getline l = some (l, []) := by
  induction l with
  | nil => exact absurd rfl hne
  | cons c cs ih =>
    have hc : c ≠ '\n' := fun hc => h (by simp [hc])
    have hcs : '\n' ∉ cs := fun hcs => h (by simp [hcs])
    cases cs with
    | nil => simp [getline, hc]
    | cons d ds =>
      rw [getline_cons, if_neg hc, ih hcs (by simp)]

/-- Every successful `getline` consumes at least one character. -/
theorem getline_shorter (cs l rest : List Char) (h : getline cs = some (l, rest)) :
    rest.length < cs.length := by
  induction cs generalizing l rest with
  | nil => simp [getline] at h
  | cons c cs ih =>
    simp only [getline] at h
    split_ifs at h with hc
    · simp only [Option.some.injEq, Prod.mk.injEq] at h
      rw [← h.2]
      simp
    · cases hg : getline cs with
      | none =>
        rw [hg] at h
        simp only [Option.some.injEq, Prod.mk.injEq] at h
        rw [← h.2]
        simp
      | some p =>
        rw [hg] at h
        simp only [Option.some.injEq, Prod.mk.injEq] at h
        have := ih p.1 p.2 hg
        rw [← h.2]
        simp only [List.length_cons]
        omega

/-- The `getline` loop has ended with any fuel above the length of the input:
more fuel does not change the calls made. -/
theorem getlineLoop_fuel (n m : Nat) (cs : List Char) (hn : cs.length < n)
    (hm : cs.length < m) : getlineLoop n cs = getlineLoop m cs := by
  induction n generalizing cs m with
  | zero => omega
  | succ n ih =>
    cases m with
    | zero => omega
    | succ m =>
      simp only [getlineLoop]
      cases hg : getline cs with
      | none => rfl
      | some p =>
        have := getline_shorter cs p.1 p.2 hg
        simp only
        rw [ih m p.2 (by omega) (by omega)]

/-- The calls made by the loop on terminated lines followed by an unterminated
rest. -/
theorem getlineLoop_lines (ls : List (List Char)) (last : List Char)
    (hls : ∀ l ∈ ls, '\n' ∉ l) (hlast : '\n' ∉ last) (fuel : Nat)
    (hfuel : (terminatedLines ls ++ last).length < fuel) :
    getlineLoop fuel (terminatedLines ls ++ last) =
      ls.map String.mk ++ (if last = [] then [] else [String.mk last]) := by
  induction ls generalizing fuel with
  | nil =>
    cases fuel with
    | zero => omega
    | succ f =>
      simp only [terminatedLines, List.map_nil, List.flatten_nil, List.nil_append]
      by_cases hl : last = []
      · simp [hl, getlineLoop, getline]
      · rw [if_neg hl]
        simp only [getlineLoop, getline_unterminated last hlast hl]
        cases f <;> simp [getlineLoop, getline]
  | cons l ls ih =>
    cases fuel with
    | zero => omega
    | succ f =>
      have hl : '\n' ∉ l := hls l (by simp)
      have hrest : ∀ l2 ∈ ls, '\n' ∉ l2 := fun l2 h2 => hls l2 (by simp [h2])
      have hsplit : terminatedLines (l :: ls) ++ last =
          l ++ '\n' :: (terminatedLines ls ++ last) := by
        simp [terminatedLines]
      rw [hsplit] at hfuel ⊢
      simp only [getlineLoop, getline_terminated l _ hl]
      rw [ih hrest f (by simp at hfuel ⊢; omega)]
      simp

/-- C5, as stated, fails.  In LineByLine mode the generation thread for
`"a\nb\n\nc"` calls the callback four times, the third time with the empty
string of the empty line. -/
theorem line_by_line_calls_empty_line :
    generationThread .LineByLine "a\nb\n\nc" = ["a", "b", "", "c"] ∧
    generationThread .LineByLine "a\nb\n\nc" ≠ ["a", "b", "c"] := by
  decide

/-- C5, amended.  In LineByLine mode, for every content made of lines
`l₁, …, lₙ` (none containing a newline character, empty ones allowed), each
followed by a newline character, and then a rest `last` without a newline
character, the one generation thread calls the callback once per line, in
order, with `l₁, …, lₙ`, empty lines included, and then once with `last` when
`last` is not empty. -/
theorem line_by_line_calls (ls : List (List Char)) (last : List Char)
    (hls : ∀ l ∈ ls, '\n' ∉ l) (hlast : '\n' ∉ last) :
    generationThread .LineByLine (String.mk (terminatedLines ls ++ last)) =
      ls.map String.mk ++ (if last = [] then [] else [String.mk last]) := by
  simp only [generationThread]
  exact getlineLoop_lines ls last hls hlast _ (Nat.lt_succ_self _)

/-- Witness of `line_by_line_calls`: the lines `a`, `b` and an empty line, then
the rest `c`. -/
theorem line_by_line_calls_witness :
    generationThread .LineByLine
        (String.mk (terminatedLines [['a'], ['b'], []] ++ ['c'])) =
      [String.mk ['a'], String.mk ['b'], String.mk [], String.mk ['c']] :=
  line_by_line_calls [['a'], ['b'], []] ['c'] (by decide) (by decide)

/-! ## Runs of several iterations -/

/-- The difference of two clock values, the later one first. -/
theorem sub64_of_le (T t : Nat) (h1 : T ≤ t) (h2 : t < 2 ^ 64) : sub64 t T = t - T := by
  unfold sub64
  have hT : T < 2 ^ 64 := lt_of_le_of_lt h1 h2
  rw [Nat.mod_eq_of_lt h2, Nat.mod_eq_of_lt hT]
  have h3 : t + 2 ^ 64 - T = (t - T) + 2 ^ 64 := by omega
  rw [h3, Nat.add_mod_right]
  exact Nat.mod_eq_of_lt (by omega)

/-- A property that every iteration establishes, given an invariant of the
members that every iteration keeps, holds along a whole run. -/
theorem runTicks_forall₂ (Inv : InputThread → Prop) (Q : TickEnv → Prop)
    {P : TickResult → TickEnv → Prop}
    (hstep : ∀ s e, Inv s → Q e → Inv (tick s e).state ∧ P (tick s e) e) :
    ∀ (envs : List TickEnv) (s : InputThread), Inv s → (∀ e ∈ envs, Q e) →
      List.Forall₂ P (runTicks s envs) envs := by
  intro envs
  induction envs with
  | nil => intro s _ _; exact List.Forall₂.nil
  | cons e es ih =>
    intro s hs hq
    have h := hstep s e hs (hq e (by simp))
    exact List.Forall₂.cons h.2 (ih (tick s e).state h.1 (fun e2 h2 => hq e2 (by simp [h2])))

/-- Counting along two lists related element by element. -/
theorem filter_length_le_of_forall₂ {α β : Type} (p : α → Bool) (q : β → Bool)
    (rs : List α) (es : List β)
    (h : List.Forall₂ (fun r e => p r = true → q e = true) rs es) :
    (rs.filter p).length ≤ (es.filter q).length := by
  induction h with
  | nil => simp
  | @cons r e rs es hhead _ ih =>
    by_cases hp : p r = true
    · rw [List.filter_cons_of_pos hp, List.filter_cons_of_pos (hhead hp)]
      simp only [List.length_cons]
      omega
    · rw [List.filter_cons_of_neg hp]
      by_cases hq : q e = true
      · rw [List.filter_cons_of_pos hq]
        simp only [List.length_cons]
        omega
      · rw [List.filter_cons_of_neg hq]
        exact ih

/-- The branch of the debounce block taken by an iteration in Debounced mode. -/
theorem tick_branch_debounced (s : InputThread) (e : TickEnv)
    (hmode : s.debounceMode = .Debounced) :
    ((tick s e).branch = .file ↔
      inWindow (timeSinceLastChangeFile (tick s e).state e) s.interval) ∧
    ((tick s e).branch = .source ↔
      ¬ inWindow (timeSinceLastChangeFile (tick s e).state e) s.interval ∧
      inWindow (timeSinceLastChangeSource (tick s e).state e) s.interval) := by
  have h3 := (tick_debounced s e hmode "").2
  by_cases w1 : inWindow (timeSinceLastChangeFile (tick s e).state e) s.interval
  · rw [if_pos w1] at h3
    have hb : (tick s e).branch = .file := congrArg Prod.snd h3
    rw [hb]
    simp [w1]
  · rw [if_neg w1] at h3
    by_cases w2 : inWindow (timeSinceLastChangeSource (tick s e).state e) s.interval
    · rw [if_pos w2] at h3
      have hb : (tick s e).branch = .source := congrArg Prod.snd h3
      rw [hb]
      simp [w1, w2]
    · rw [if_neg w2] at h3
      have hb : (tick s e).branch = .cleared := congrArg Prod.snd h3
      rw [hb]
      simp [w1, w2]

/-- In a list of iterations each at least `I` after its predecessor, every
iteration after the first is at least `I` after the first. -/
theorem chain_gap_lower (I : Nat) (es : List TickEnv) (e0 : TickEnv)
    (h : List.Chain (fun a b : TickEnv => a.nowDebounce + I ≤ b.nowDebounce) e0 es) :
    ∀ e ∈ es, e0.nowDebounce + I ≤ e.nowDebounce := by
  induction es generalizing e0 with
  | nil => intro e he; simp at he
  | cons e1 es ih =>
    rw [List.chain_cons] at h
    intro e he
    rcases List.mem_cons.1 he with rfl | he
    · exact h.1
    · have := ih e1 h.2 e he
      omega

/-- With iterations at least `I` apart and not before `T`, at most one of them has
an elapsed time since `T` strictly between `I` and `2 * I`. -/
theorem window_at_most_once (I T : Nat) (es : List TickEnv)
    (hgap : List.Chain' (fun a b : TickEnv => a.nowDebounce + I ≤ b.nowDebounce) es)
    (hclock : ∀ e ∈ es, T ≤ e.nowDebounce ∧ e.nowDebounce < 2 ^ 64) :
    (es.filter (fun e => decide (inWindow (sub64 e.nowDebounce T) I))).length ≤ 1 := by
  induction es with
  | nil => simp
  | cons e0 es ih =>
    have htail := ih hgap.tail (fun e he => hclock e (by simp [he]))
    by_cases w : inWindow (sub64 e0.nowDebounce T) I
    · have hnone : es.filter (fun e => decide (inWindow (sub64 e.nowDebounce T) I)) = [] := by
        rw [List.filter_eq_nil_iff]
        intro e he
        have hlow := chain_gap_lower I es e0 hgap e he
        have hc0 := hclock e0 (by simp)
        have hc := hclock e (by simp [he])
        have w0 := w
        unfold inWindow at w0 ⊢
        rw [sub64_of_le T _ hc0.1 hc0.2] at w0
        rw [sub64_of_le T _ hc.1 hc.2]
        simp only [decide_eq_true_eq]
        omega
      rw [List.filter_cons_of_pos (by simpa using w), hnone]
      simp
    · rw [List.filter_cons_of_neg (by simpa using w)]
      exact htail

/-- The window test on an elapsed time, in terms of the two clock values. -/
theorem inWindow_iff (T t I : Nat) (h1 : T ≤ t) (h2 : t < 2 ^ 64) :
    inWindow (sub64 t T) I ↔ (T + I < t ∧ t < T + 2 * I) := by
  unfold inWindow
  rw [sub64_of_le T t h1 h2]
  omega

/-- Along a run in Debounced mode in which the file never changes, the file
branch is taken exactly in the iterations whose elapsed time since the file's
timestamp is in the window, and it stages the stored file value. -/
theorem file_quiet_run (s : InputThread) (envs : List TickEnv)
    (hmode : s.debounceMode = .Debounced) (hq : ∀ e ∈ envs, ¬ fileChanged s e) :
    List.Forall₂
      (fun r e =>
        (r.branch = .file ↔ inWindow (sub64 e.nowDebounce s.lastChangeTimeFile) s.interval) ∧
        (r.branch = .file → r.staged = s.lastFileValue))
      (runTicks s envs) envs := by
  refine runTicks_forall₂
    (fun s2 => s2.debounceMode = .Debounced ∧ s2.interval = s.interval ∧
      s2.file = s.file ∧ s2.lastFileValue = s.lastFileValue ∧
      s2.lastChangeTimeFile = s.lastChangeTimeFile)
    (fun e => ¬ fileChanged s e) ?_ envs s ⟨hmode, rfl, rfl, rfl, rfl⟩ hq
  intro s2 e hinv hqe
  have hqe2 : ¬ fileChanged s2 e := by
    unfold fileChanged at hqe ⊢
    rw [hinv.2.2.1, hinv.2.2.2.1]
    exact hqe
  have hfr := tick_frame s2 e
  have hfile := tick_file_of_unchanged s2 e hqe2
  have hbr := (tick_branch_debounced s2 e hinv.1).1
  have hdeb := (tick_debounced s2 e hinv.1 "").2
  unfold timeSinceLastChangeFile at hbr
  rw [hfile.2, hinv.2.2.2.2, hinv.2.1] at hbr
  refine ⟨⟨?_, ?_, ?_, ?_, ?_⟩, hbr, ?_⟩
  · rw [hfr.2.2.2.1, hinv.1]
  · rw [hfr.1, hinv.2.1]
  · rw [hfr.2.1, hinv.2.2.1]
  · rw [hfile.1, hinv.2.2.2.1]
  · rw [hfile.2, hinv.2.2.2.2]
  · intro hb
    have w := (tick_branch_debounced s2 e hinv.1).1.1 hb
    rw [if_pos w] at hdeb
    have hst : (tick s2 e).staged = (tick s2 e).state.lastFileValue :=
      congrArg Prod.fst hdeb
    rw [hst, hfile.1, hinv.2.2.2.1]

/-- Along a run in Debounced mode in which the text source never changes, the
source branch is taken only in iterations whose elapsed time since the text
source's timestamp is in the window, and it stages the stored text. -/
theorem source_quiet_run (s : InputThread) (envs : List TickEnv)
    (hmode : s.debounceMode = .Debounced) (hq : ∀ e ∈ envs, ¬ sourceChanged s e) :
    List.Forall₂
      (fun r e =>
        (r.branch = .source →
          inWindow (sub64 e.nowDebounce s.lastChangeTimeSource) s.interval) ∧
        (r.branch = .source → r.staged = s.lastOBSTextSourceValue))
      (runTicks s envs) envs := by
  refine runTicks_forall₂
    (fun s2 => s2.debounceMode = .Debounced ∧ s2.interval = s.interval ∧
      s2.obsTextSource = s.obsTextSource ∧
      s2.lastOBSTextSourceValue = s.lastOBSTextSourceValue ∧
      s2.lastChangeTimeSource = s.lastChangeTimeSource)
    (fun e => ¬ sourceChanged s e) ?_ envs s ⟨hmode, rfl, rfl, rfl, rfl⟩ hq
  intro s2 e hinv hqe
  have hqe2 : ¬ sourceChanged s2 e := by
    unfold sourceChanged at hqe ⊢
    rw [hinv.2.2.1, hinv.2.2.2.1]
    exact hqe
  have hfr := tick_frame s2 e
  have hsrc := tick_source_of_unchanged s2 e hqe2
  have hbr := (tick_branch_debounced s2 e hinv.1).2
  have hdeb := (tick_debounced s2 e hinv.1 "").2
  unfold timeSinceLastChangeSource at hbr
  rw [hsrc.2, hinv.2.2.2.2, hinv.2.1] at hbr
  refine ⟨⟨?_, ?_, ?_, ?_, ?_⟩, fun hb => (hbr.1 hb).2, ?_⟩
  · rw [hfr.2.2.2.1, hinv.1]
  · rw [hfr.1, hinv.2.1]
  · rw [hfr.2.2.1, hinv.2.2.1]
  · rw [hsrc.1, hinv.2.2.2.1]
  · rw [hsrc.2, hinv.2.2.2.2]
  · intro hb
    have w := (tick_branch_debounced s2 e hinv.1).2.1 hb
    rw [if_neg w.1, if_pos w.2] at hdeb
    have hst : (tick s2 e).staged = (tick s2 e).state.lastOBSTextSourceValue :=
      congrArg Prod.fst hdeb
    rw [hst, hsrc.1, hinv.2.2.2.1]

/-! ## Iterations at least one interval apart -/

/-- In Debounced mode, for every run of iterations whose consecutive times are
at least `interval` apart, the first of which may record a change at time `T`:
when the file does not change in the later iterations and no iteration reads
the clock below `T`, at most one iteration has an elapsed time since `T`
strictly between `interval` and `2 * interval`, and at most one iteration
stages through the file branch; the same holds for the text source. -/
theorem spaced_ticks_at_most_once (s : InputThread) (e0 : TickEnv)
    (envs : List TickEnv) (hmode : s.debounceMode = .Debounced)
    (hgap : List.Chain'
      (fun a b : TickEnv => a.nowDebounce + s.interval ≤ b.nowDebounce) (e0 :: envs)) :
    ((∀ e ∈ envs, ¬ fileChanged (tick s e0).state e) →
      (∀ e ∈ e0 :: envs, (tick s e0).state.lastChangeTimeFile ≤ e.nowDebounce ∧
        e.nowDebounce < 2 ^ 64) →
      ((e0 :: envs).filter (fun e => decide
        (s.interval < sub64 e.nowDebounce (tick s e0).state.lastChangeTimeFile ∧
          sub64 e.nowDebounce (tick s e0).state.lastChangeTimeFile
            < s.interval * 2))).length ≤ 1 ∧
      ((runTicks s (e0 :: envs)).filter
        (fun r => decide (r.branch = .file))).length ≤ 1) ∧
    ((∀ e ∈ envs, ¬ sourceChanged (tick s e0).state e) →
      (∀ e ∈ e0 :: envs, (tick s e0).state.lastChangeTimeSource ≤ e.nowDebounce ∧
        e.nowDebounce < 2 ^ 64) →
      ((e0 :: envs).filter (fun e => decide
        (s.interval < sub64 e.nowDebounce (tick s e0).state.lastChangeTimeSource ∧
          sub64 e.nowDebounce (tick s e0).state.lastChangeTimeSource
            < s.interval * 2))).length ≤ 1 ∧
      ((runTicks s (e0 :: envs)).filter
        (fun r => decide (r.branch = .source))).length ≤ 1) := by
  have hfr := tick_frame s e0
  have hmode1 : (tick s e0).state.debounceMode = .Debounced := by rw [hfr.2.2.2.1, hmode]
  have hbr := tick_branch_debounced s e0 hmode
  constructor
  · intro hq hclock
    have hw := window_at_most_once s.interval (tick s e0).state.lastChangeTimeFile
      (e0 :: envs) hgap hclock
    refine ⟨hw, le_trans ?_ hw⟩
    apply filter_length_le_of_forall₂
    refine List.Forall₂.cons ?_ ?_
    · intro hb
      simp only [decide_eq_true_eq] at hb ⊢
      exact hbr.1.1 hb
    · refine List.Forall₂.imp ?_ (file_quiet_run (tick s e0).state envs hmode1 hq)
      intro r e hre hb
      simp only [decide_eq_true_eq] at hb ⊢
      have := hre.1.1 hb
      rw [hfr.1] at this
      exact this
  · intro hq hclock
    have hw := window_at_most_once s.interval (tick s e0).state.lastChangeTimeSource
      (e0 :: envs) hgap hclock
    refine ⟨hw, le_trans ?_ hw⟩
    apply filter_length_le_of_forall₂
    refine List.Forall₂.cons ?_ ?_
    · intro hb
      simp only [decide_eq_true_eq] at hb ⊢
      exact (hbr.2.1 hb).2
    · refine List.Forall₂.imp ?_ (source_quiet_run (tick s e0).state envs hmode1 hq)
      intro r e hre hb
      simp only [decide_eq_true_eq] at hb ⊢
      have := hre.1 hb
      rw [hfr.1] at this
      exact this

/-! ## C10: the loop with its sleep -/

/-- A clock that is not set back does not run backwards. -/
theorem advance_ge (clock : Nat) (l : Lapse) (h : 0 ≤ l.adjust) :
    clock + l.elapsed ≤ advance clock l := by
  unfold advance
  omega

/-- A value of `now_ms()` is a `uint64_t`. -/
theorem now_ms_lt (p clock : Nat) : now_ms p clock < 2 ^ 64 := by
  unfold now_ms
  exact Nat.mod_lt _ (by norm_num)

/-- Without a set-back, line 89 is reached with the clock not below its count at
the top of the loop body. -/
theorem clockAtDebounce_ge (clock : Nat) (e : LoopEnv) (h : noSetBack e) :
    clock ≤ clockAtDebounce clock e := by
  unfold clockAtDebounce
  have h1 := advance_ge clock e.toFile h.1
  have h2 := advance_ge (advance clock e.toFile) e.toSource h.2.1
  have h3 := advance_ge (advance (advance clock e.toFile) e.toSource) e.toDebounce h.2.2.1
  omega

/-- Without a set-back, the sleep ends at least `interval` milliseconds of clock
after line 89 was reached. -/
theorem clockAfter_ge (p interval clock : Nat) (e : LoopEnv) (h : noSetBack e) :
    clockAtDebounce clock e + interval * p ≤ clockAfter p interval clock e := by
  unfold clockAfter sleep_for
  have h1 := advance_ge (clockAtDebounce clock e) e.toSleep h.2.2.2.1
  have h2 := advance_ge (advance (clockAtDebounce clock e) e.toSleep)
    { elapsed := interval * p + e.overslept, adjust := e.sleepAdjust } h.2.2.2.2
  simp only at h2
  omega

/-- Without a set-back, the clock at the end of a run is not below the clock at
its start. -/
theorem loopClock_ge (p : Nat) (envs : List LoopEnv) (s : InputThread) (clock : Nat)
    (h : ∀ e ∈ envs, noSetBack e) : clock ≤ loopClock p s clock envs := by
  induction envs generalizing s clock with
  | nil => exact le_refl _
  | cons e es ih =>
    have he := h e (by simp)
    have h1 := clockAtDebounce_ge clock e he
    have h2 := clockAfter_ge p (tick s (observed p clock e)).state.interval clock e he
    have h3 := ih (loopTick p s clock e).1.state (loopTick p s clock e).2
      (fun e2 h2 => h e2 (by simp [h2]))
    simp only [loopClock]
    simp only [loopTick] at h3 ⊢
    omega

/-- The loop with its sleeps runs lines 35-120 on what its iterations observe. -/
theorem runLoop_eq (p : Nat) (envs : List LoopEnv) (s : InputThread) (clock : Nat) :
    runLoop p s clock envs = runTicks s (loopEnvs p s clock envs) := by
  induction envs generalizing s clock with
  | nil => rfl
  | cons e es ih =>
    simp only [runLoop, loopEnvs, runTicks]
    rw [ih]
    rfl

/-- Every time observed along a run of the loop is a `uint64_t`. -/
theorem loopEnvs_lt (p : Nat) (envs : List LoopEnv) (s : InputThread) (clock : Nat) :
    ∀ e ∈ loopEnvs p s clock envs, e.nowDebounce < 2 ^ 64 := by
  induction envs generalizing s clock with
  | nil => intro e he; simp [loopEnvs] at he
  | cons e0 es ih =>
    intro e he
    simp only [loopEnvs, List.mem_cons] at he
    rcases he with rfl | he
    · exact now_ms_lt _ _
    · exact ih _ _ e he

/-- Without a set-back, the clock at the end of a run is not below its count when
the first iteration reached line 89. -/
theorem clockAtDebounce_le_loopClock (p : Nat) (es : List LoopEnv) (s : InputThread)
    (clock : Nat) (e : LoopEnv) (h : ∀ x ∈ e :: es, noSetBack x) :
    clockAtDebounce clock e ≤ loopClock p s clock (e :: es) := by
  have he := h e (by simp)
  have h2 := clockAfter_ge p (tick s (observed p clock e)).state.interval clock e he
  have h3 := loopClock_ge p es (loopTick p s clock e).1.state (loopTick p s clock e).2
    (fun x hx => h x (List.mem_cons_of_mem _ hx))
  have hlast : loopClock p s clock (e :: es) =
      loopClock p (loopTick p s clock e).1.state (loopTick p s clock e).2 es := rfl
  have hc : (loopTick p s clock e).2 =
      clockAfter p (tick s (observed p clock e)).state.interval clock e := rfl
  rw [hlast]
  rw [hc] at h3 ⊢
  omega

/-- The sleep keeps consecutive iterations at least `interval` apart on a clock
that is not set back and whose millisecond count stays below `2^64`. -/
theorem loop_gap (p : Nat) (hp : 0 < p) (envs : List LoopEnv) (s : InputThread)
    (clock : Nat) (e0 : LoopEnv) (I : Nat) (hI : s.interval = I)
    (hfwd : ∀ e ∈ e0 :: envs, noSetBack e)
    (hrange : loopClock p s clock (e0 :: envs) / p < 2 ^ 64) :
    List.Chain' (fun a b : TickEnv => a.nowDebounce + I ≤ b.nowDebounce)
      (loopEnvs p s clock (e0 :: envs)) := by
  induction envs generalizing s clock e0 with
  | nil => simp [loopEnvs]
  | cons e1 es ih =>
    have hfr := tick_frame s (observed p clock e0)
    have h0 := hfwd e0 (by simp)
    have h1 := hfwd e1 (by simp)
    have htl : ∀ e ∈ e1 :: es, noSetBack e :=
      fun e he => hfwd e (List.mem_cons_of_mem _ he)
    have hc1 : clockAtDebounce clock e0 + I * p ≤ (loopTick p s clock e0).2 := by
      have ha := clockAfter_ge p (tick s (observed p clock e0)).state.interval clock e0 h0
      have hc : (loopTick p s clock e0).2 =
          clockAfter p (tick s (observed p clock e0)).state.interval clock e0 := rfl
      rw [hc]
      rw [hfr.1, hI] at ha ⊢
      exact ha
    have hI1 : (loopTick p s clock e0).1.state.interval = I := by
      show (tick s (observed p clock e0)).state.interval = I
      rw [hfr.1, hI]
    have hunfold : loopEnvs p s clock (e0 :: e1 :: es) =
        observed p clock e0 ::
          loopEnvs p (loopTick p s clock e0).1.state (loopTick p s clock e0).2 (e1 :: es) :=
      rfl
    have hlast : loopClock p s clock (e0 :: e1 :: es) =
        loopClock p (loopTick p s clock e0).1.state (loopTick p s clock e0).2 (e1 :: es) :=
      rfl
    rw [hunfold]
    rw [hlast] at hrange
    generalize (loopTick p s clock e0).1.state = s1 at hI1 hrange ⊢
    generalize (loopTick p s clock e0).2 = c1 at hc1 hrange ⊢
    have htail := ih s1 c1 e1 hI1 htl hrange
    have hA := clockAtDebounce_le_loopClock p es s1 c1 e1 htl
    have hb := clockAtDebounce_ge c1 e1 h1
    have hunfold2 : loopEnvs p s1 c1 (e1 :: es) =
        observed p c1 e1 ::
          loopEnvs p (loopTick p s1 c1 e1).1.state (loopTick p s1 c1 e1).2 es := rfl
    rw [hunfold2] at htail ⊢
    refine List.chain'_cons.2 ⟨?_, htail⟩
    show now_ms p (clockAtDebounce clock e0) + I ≤ now_ms p (clockAtDebounce c1 e1)
    have hd1 : clockAtDebounce c1 e1 / p < 2 ^ 64 :=
      lt_of_le_of_lt (Nat.div_le_div_right hA) hrange
    have hmono : clockAtDebounce clock e0 + I * p ≤ clockAtDebounce c1 e1 := by omega
    have hd0 : clockAtDebounce clock e0 / p < 2 ^ 64 := by
      have hle : clockAtDebounce clock e0 ≤ clockAtDebounce c1 e1 := by
        have := Nat.zero_le (I * p)
        omega
      exact lt_of_le_of_lt (Nat.div_le_div_right hle) hd1
    unfold now_ms
    rw [Nat.mod_eq_of_lt hd0, Nat.mod_eq_of_lt hd1, ← Nat.add_mul_div_right _ _ hp]
    exact Nat.div_le_div_right hmono

/-- C10, as stated, fails.  The sleep of line 123 does not keep the times read by
`now_ms()` at least `interval` apart, because `now_ms()` reads the system clock:
with interval 1000 and a change of the file recorded at 5000, an iteration at
6200 stages `"hi"`, the thread sleeps 1000 ms while the clock is set back by
600 ms, and the next iteration, at 6600, stages `"hi"` again. -/
theorem sleep_does_not_space_a_set_back_clock :
    quietDebounced.debounceMode = .Debounced ∧
    quietDebounced.interval = 1000 ∧
    quietDebounced.lastChangeTimeFile = 5000 ∧
    (∀ e ∈ loopEnvs 1000 quietDebounced 6200000 setBackRun,
      ¬ fileChanged quietDebounced e ∧ ¬ sourceChanged quietDebounced e) ∧
    tickTimes (loopEnvs 1000 quietDebounced 6200000 setBackRun) = [6200, 6600] ∧
    (runLoop 1000 quietDebounced 6200000 setBackRun).map (fun r => r.staged) =
      ["hi", "hi"] ∧
    (runLoop 1000 quietDebounced 6200000 setBackRun).map (fun r => r.branch) =
      [.file, .file] ∧
    (runLoop 1000 quietDebounced 6200000 setBackRun).map (fun r => r.dispatched) =
      [some ["hi"], some ["hi"]] := by
  decide

/-- C10, amended.  In Debounced mode, for every run of the loop with its sleeps
(lines 35-123): the sleep keeps the times of consecutive iterations at least
`interval` apart when the system clock is not set back during the run (and its
millisecond count stays below `2^64`); and whenever consecutive times are at
least `interval` apart, for a change recorded at time `T`, by the first
iteration or before it, with no later change of that source and no time read
below `T`, at most one iteration has an elapsed time strictly between
`interval` and `2 * interval`, and at most one iteration stages through that
source's branch. -/
theorem loop_sleep_at_most_once (p : Nat) (s : InputThread) (clock : Nat)
    (e0 : LoopEnv) (envs : List LoopEnv) (hmode : s.debounceMode = .Debounced) :
    (0 < p → (∀ e ∈ e0 :: envs, noSetBack e) →
      loopClock p s clock (e0 :: envs) / p < 2 ^ 64 →
      List.Chain' (fun a b : TickEnv => a.nowDebounce + s.interval ≤ b.nowDebounce)
        (loopEnvs p s clock (e0 :: envs))) ∧
    (List.Chain' (fun a b : TickEnv => a.nowDebounce + s.interval ≤ b.nowDebounce)
        (loopEnvs p s clock (e0 :: envs)) →
      ((∀ e ∈ (loopEnvs p s clock (e0 :: envs)).tail,
          ¬ fileChanged (loopTick p s clock e0).1.state e) →
        (∀ e ∈ loopEnvs p s clock (e0 :: envs),
          (loopTick p s clock e0).1.state.lastChangeTimeFile ≤ e.nowDebounce) →
        ((loopEnvs p s clock (e0 :: envs)).filter (fun e => decide
          (s.interval <
              sub64 e.nowDebounce (loopTick p s clock e0).1.state.lastChangeTimeFile ∧
            sub64 e.nowDebounce (loopTick p s clock e0).1.state.lastChangeTimeFile
              < s.interval * 2))).length ≤ 1 ∧
        ((runLoop p s clock (e0 :: envs)).filter
          (fun r => decide (r.branch = .file))).length ≤ 1) ∧
      ((∀ e ∈ (loopEnvs p s clock (e0 :: envs)).tail,
          ¬ sourceChanged (loopTick p s clock e0).1.state e) →
        (∀ e ∈ loopEnvs p s clock (e0 :: envs),
          (loopTick p s clock e0).1.state.lastChangeTimeSource ≤ e.nowDebounce) →
        ((loopEnvs p s clock (e0 :: envs)).filter (fun e => decide
          (s.interval <
              sub64 e.nowDebounce (loopTick p s clock e0).1.state.lastChangeTimeSource ∧
            sub64 e.nowDebounce (loopTick p s clock e0).1.state.lastChangeTimeSource
              < s.interval * 2))).length ≤ 1 ∧
        ((runLoop p s clock (e0 :: envs)).filter
          (fun r => decide (r.branch = .source))).length ≤ 1)) := by
  have hunfold : loopEnvs p s clock (e0 :: envs) =
      observed p clock e0 ::
        loopEnvs p (loopTick p s clock e0).1.state (loopTick p s clock e0).2 envs := rfl
  have hlt := loopEnvs_lt p (e0 :: envs) s clock
  constructor
  · intro hp hfwd hrange
    exact loop_gap p hp envs s clock e0 s.interval rfl hfwd hrange
  · intro hgap
    rw [runLoop_eq]
    rw [hunfold] at hgap hlt ⊢
    have hmain := spaced_ticks_at_most_once s (observed p clock e0)
      (loopEnvs p (loopTick p s clock e0).1.state (loopTick p s clock e0).2 envs) hmode hgap
    constructor
    · intro hq hclock
      exact hmain.1 hq (fun e he => ⟨hclock e he, hlt e he⟩)
    · intro hq hclock
      exact hmain.2 hq (fun e he => ⟨hclock e he, hlt e he⟩)

/-- Witness of `loop_sleep_at_most_once`: on a clock that is never set, the file
changes to `"new"` in an iteration at 8000 and is read again at 9100 and
10200; the sleep spaces the iterations and only the one at 9100 stages
`"new"`. -/
theorem loop_sleep_at_most_once_witness :
    quietDebounced.debounceMode = .Debounced ∧
    tickTimes (loopEnvs 1000 quietDebounced 8000000
      (loopReads "new" 100000 0 :: steadyRun)) = [8000, 9100, 10200] ∧
    (runLoop 1000 quietDebounced 8000000
      (loopReads "new" 100000 0 :: steadyRun)).map (fun r => r.staged) = ["", "new", ""] ∧
    ((runLoop 1000 quietDebounced 8000000
      (loopReads "new" 100000 0 :: steadyRun)).filter
        (fun r => decide (r.branch = .file))).length ≤ 1 :=
  ⟨rfl, by decide, by decide,
   (((loop_sleep_at_most_once 1000 quietDebounced 8000000 (loopReads "new" 100000 0)
        steadyRun rfl).2
      ((loop_sleep_at_most_once 1000 quietDebounced 8000000 (loopReads "new" 100000 0)
        steadyRun rfl).1 (by decide) (by decide) (by decide))).1
      (by decide) (by decide)).2⟩

/-! ## C3: iterations at most half an interval apart -/

/-- With consecutive iterations at most `h` apart, the first at or before `B` and
some later one after `B`, some iteration lies in `(B, B + h]`. -/
theorem cadence_hits_window (h B : Nat) (es : List TickEnv) (e0 : TickEnv)
    (hchain : List.Chain (fun a b : TickEnv => b.nowDebounce ≤ a.nowDebounce + h) e0 es)
    (h0 : e0.nowDebounce ≤ B) (hex : ∃ e ∈ es, B < e.nowDebounce) :
    ∃ e ∈ es, B < e.nowDebounce ∧ e.nowDebounce ≤ B + h := by
  induction es generalizing e0 with
  | nil =>
    obtain ⟨e, he, _⟩ := hex
    simp at he
  | cons e1 es ih =>
    rw [List.chain_cons] at hchain
    by_cases h1 : B < e1.nowDebounce
    · exact ⟨e1, by simp, h1, by omega⟩
    · obtain ⟨e, he, hB⟩ := hex
      rcases List.mem_cons.1 he with rfl | he
      · exact absurd hB h1
      · obtain ⟨e2, he2, hw⟩ := ih e1 hchain.2 (by omega) ⟨e, he, hB⟩
        exact ⟨e2, by simp [he2], hw⟩

/-- C3, as stated, fails.  In Debounced mode with interval 1000, after a single
change of the file recorded at 5000, four iterations at 5700, 6200, 6700 and
7200 (500 apart, half the interval) in which nothing changes stage `"hi"`
twice: at 6200, the first time strictly between 6000 and 7000, and again at
6700. -/
theorem debounced_fine_cadence_stages_twice :
    quietDebounced.debounceMode = .Debounced ∧
    quietDebounced.interval = 1000 ∧
    quietDebounced.lastChangeTimeFile = 5000 ∧
    tickTimes cadenceRun = [5700, 6200, 6700, 7200] ∧
    List.Chain' (fun a b => a ≤ b ∧ b ≤ a + quietDebounced.interval / 2)
      (tickTimes cadenceRun) ∧
    (∀ e ∈ cadenceRun, ¬ fileChanged quietDebounced e ∧ ¬ sourceChanged quietDebounced e) ∧
    (runTicks quietDebounced cadenceRun).map (fun r => r.staged) = ["", "hi", "hi", ""] ∧
    (runTicks quietDebounced cadenceRun).map (fun r => r.dispatched) =
      [none, some ["hi"], some ["hi"], none] := by
  refine ⟨rfl, rfl, rfl, rfl, ?_, by decide, by decide, by decide⟩
  simp [tickTimes, cadenceRun, rereadAt, quietDebounced]

/-- C3, amended.  In Debounced mode, for every run of iterations in which neither
the file nor the text source changes (every change was recorded before, the
file's at `lastChangeTimeFile`, the text source's at `lastChangeTimeSource`, and
no iteration reads the clock below these): every iteration whose time lies
strictly between the file's timestamp plus `interval` and plus `2 * interval`
stages the stored file value; an iteration outside that range does not stage
through the file branch, and it stages the stored text of the text source when
its time lies strictly between the text source's timestamp plus `interval` and
plus `2 * interval`, and nothing otherwise.  When `interval` is positive,
consecutive iterations are at most `interval / 2` apart, the first one is not
after `T + interval` and some iteration is not before `T + 2 * interval`, at
least one iteration lies strictly between `T + interval` and
`T + 2 * interval`; nothing limits their number to one. -/
theorem debounced_window_every_tick (s : InputThread) (envs : List TickEnv)
    (hmode : s.debounceMode = .Debounced)
    (hquiet : ∀ e ∈ envs, ¬ fileChanged s e ∧ ¬ sourceChanged s e)
    (hclock : ∀ e ∈ envs, s.lastChangeTimeFile ≤ e.nowDebounce ∧
      s.lastChangeTimeSource ≤ e.nowDebounce ∧ e.nowDebounce < 2 ^ 64) :
    List.Forall₂
      (fun r e =>
        ((s.lastChangeTimeFile + s.interval < e.nowDebounce ∧
            e.nowDebounce < s.lastChangeTimeFile + 2 * s.interval) →
          r.staged = s.lastFileValue ∧ r.branch = .file) ∧
        (¬ (s.lastChangeTimeFile + s.interval < e.nowDebounce ∧
            e.nowDebounce < s.lastChangeTimeFile + 2 * s.interval) →
          r.branch ≠ .file ∧
          ((s.lastChangeTimeSource + s.interval < e.nowDebounce ∧
              e.nowDebounce < s.lastChangeTimeSource + 2 * s.interval) →
            r.staged = s.lastOBSTextSourceValue ∧ r.branch = .source) ∧
          (¬ (s.lastChangeTimeSource + s.interval < e.nowDebounce ∧
              e.nowDebounce < s.lastChangeTimeSource + 2 * s.interval) →
            r.staged = "" ∧ r.branch = .cleared ∧ r.dispatched = none)))
      (runTicks s envs) envs ∧
    (0 < s.interval →
      List.Chain' (fun a b : TickEnv => b.nowDebounce ≤ a.nowDebounce + s.interval / 2)
        envs →
      ∀ T e0 rest, envs = e0 :: rest → e0.nowDebounce ≤ T + s.interval →
        (∃ e ∈ envs, T + 2 * s.interval ≤ e.nowDebounce) →
        ∃ e ∈ envs, T + s.interval < e.nowDebounce ∧
          e.nowDebounce < T + 2 * s.interval) := by
  constructor
  · refine runTicks_forall₂ (fun s2 => s2 = s)
      (fun e => (¬ fileChanged s e ∧ ¬ sourceChanged s e) ∧
        (s.lastChangeTimeFile ≤ e.nowDebounce ∧
          s.lastChangeTimeSource ≤ e.nowDebounce ∧ e.nowDebounce < 2 ^ 64))
      ?_ envs s rfl (fun e he => ⟨hquiet e he, hclock e he⟩)
    intro s2 e hinv hq
    subst hinv
    obtain ⟨⟨hqf, hqs⟩, hcf, hcs, hlt⟩ := hq
    have hstate : (tick s2 e).state = s2 := by
      simp only [tick]
      rw [monitorFile_of_unchanged s2 e "" hqf, monitorSource_of_unchanged s2 e "" hqs]
    have hdeb := (tick_debounced s2 e hmode "").2
    rw [hstate] at hdeb
    have wf := inWindow_iff s2.lastChangeTimeFile e.nowDebounce s2.interval hcf hlt
    have ws := inWindow_iff s2.lastChangeTimeSource e.nowDebounce s2.interval hcs hlt
    refine ⟨hstate, ?_, ?_⟩
    · intro hw
      have w1 : inWindow (timeSinceLastChangeFile s2 e) s2.interval := wf.2 hw
      rw [if_pos w1] at hdeb
      exact ⟨congrArg Prod.fst hdeb, congrArg Prod.snd hdeb⟩
    · intro hw
      have w1 : ¬ inWindow (timeSinceLastChangeFile s2 e) s2.interval := fun w => hw (wf.1 w)
      rw [if_neg w1] at hdeb
      by_cases hw2 : s2.lastChangeTimeSource + s2.interval < e.nowDebounce ∧
          e.nowDebounce < s2.lastChangeTimeSource + 2 * s2.interval
      · have w2 : inWindow (timeSinceLastChangeSource s2 e) s2.interval := ws.2 hw2
        rw [if_pos w2] at hdeb
        have hb : (tick s2 e).branch = .source := congrArg Prod.snd hdeb
        refine ⟨by rw [hb]; decide, fun _ => ⟨congrArg Prod.fst hdeb, hb⟩,
          fun hn => absurd hw2 hn⟩
      · have w2 : ¬ inWindow (timeSinceLastChangeSource s2 e) s2.interval :=
          fun w => hw2 (ws.1 w)
        rw [if_neg w2] at hdeb
        have hb : (tick s2 e).branch = .cleared := congrArg Prod.snd hdeb
        have hst : (tick s2 e).staged = "" := congrArg Prod.fst hdeb
        refine ⟨by rw [hb]; decide, fun hy => absurd hy hw2, fun _ => ⟨hst, hb, ?_⟩⟩
        rw [tick_dispatched, hst, dispatch_empty]
  · intro hpos hchain T e0 rest henv h0 hex
    subst henv
    obtain ⟨e, he, hge⟩ := hex
    have hin : e ∈ rest := by
      rcases List.mem_cons.1 he with rfl | h
      · omega
      · exact h
    obtain ⟨e2, he2, hlo, hhi⟩ := cadence_hits_window (s.interval / 2) (T + s.interval)
      rest e0 hchain h0 ⟨e, hin, by omega⟩
    exact ⟨e2, by simp [he2], hlo, by omega⟩

/-- Witness of `debounced_window_every_tick`: in the run at 5700, 6200, 6700 and
7200 after the change recorded at 5000, some iteration lies strictly between
6000 and 7000. -/
theorem debounced_window_every_tick_witness :
    quietDebounced.debounceMode = .Debounced ∧
    ∃ e ∈ cadenceRun, 5000 + quietDebounced.interval < e.nowDebounce ∧
      e.nowDebounce < 5000 + 2 * quietDebounced.interval :=
  ⟨rfl,
   (debounced_window_every_tick quietDebounced cadenceRun rfl (by decide) (by decide)).2
     (by decide) (by simp [cadenceRun, rereadAt, quietDebounced]) 5000 (rereadAt 5700)
     [rereadAt 6200, rereadAt 6700, rereadAt 7200] rfl (by decide)
     ⟨rereadAt 7200, by simp [cadenceRun], by decide⟩⟩

end Squawk
